import Mathlib

/-!
Shallow embedding of the Trainingapp core (the data service in
`js/services/dataService.js`, the fiscal-calendar helpers in
`js/utils/helpers.js`, and the report aggregations in
`js/components/yearlyReport.js`, `js/components/analysis.js` and
`js/components/performance.js`), together with theorems settling the
specification's claims against it.

Conventions of the embedding:
* JS strings are `String`; a JS value that may be `undefined` is an `Option`.
* A thrown JS exception is `Except.error`; normal return is `Except.ok`.
* Training-hours values are carried as `Option ℚ`, the result of
  `parseFloat` (`none` = `NaN`); the source's `parseFloat(x) || 0` is
  `Option.getD · 0`.
* JS `Set` objects are duplicate-free lists in insertion order (`setAdd`).
* JS plain objects used as accumulators are association lists in key
  insertion order (`upsert` / `accumBy`).
-/

namespace Trainingapp

/-- A calendar date as the JS code observes it through `getFullYear`,
`getMonth` and `getDate`: a year, a 1-based month and a day of month.
JS `getMonth` is 0-based; definitions subtract 1 where the source does
arithmetic on the 0-based month. -/
structure SimpleDate where
  year : Int
  month : Nat
  day : Nat
deriving DecidableEq

/-- Gregorian leap-year rule, as implemented by the JS `Date` object. -/
def isLeapYear (y : Int) : Bool :=
  y % 4 == 0 && (y % 100 != 0 || y % 400 == 0)

/-- Number of days in a calendar month of a given year. -/
def daysInMonth (y : Int) (m : Nat) : Nat :=
  if m == 2 then (if isLeapYear y then 29 else 28)
  else if m == 4 || m == 6 || m == 9 || m == 11 then 30
  else 31

/-- A date is valid when its month and day components are in range. -/
def isValidDate (d : SimpleDate) : Bool :=
  1 ≤ d.month && d.month ≤ 12 && 1 ≤ d.day && d.day ≤ daysInMonth d.year d.month

/-- `getFiscalYear` from `js/utils/helpers.js`. An invalid date (modelled as
`none`) yields `""`; otherwise the result is `FY y` with `y` the calendar
year when the 0-based month is at least 6 (July or later), and the calendar
year minus one otherwise. -/
def getFiscalYear : Option SimpleDate → String
  | none => ""
  | some d =>
    let month0 : Nat := d.month - 1
    let fy : Int := if 6 ≤ month0 then d.year else d.year - 1
    "FY " ++ toString fy

/-- English month names, as produced by
`toLocaleString('default', { month: 'long' })` in the English locale the
application assumes (its own `CONFIG.MONTH_ORDER` uses these names). -/
def monthName (m : Nat) : String :=
  match m with
  | 1 => "January"
  | 2 => "February"
  | 3 => "March"
  | 4 => "April"
  | 5 => "May"
  | 6 => "June"
  | 7 => "July"
  | 8 => "August"
  | 9 => "September"
  | 10 => "October"
  | 11 => "November"
  | 12 => "December"
  | _ => "Invalid Date"

/-- The week-bucket number of `_enrichRecord` in `js/services/dataService.js`:
`Math.ceil(dayOfMonth / 7)`, which on natural numbers is `(day + 6) / 7`. -/
def weekNum (day : Nat) : Nat :=
  (day + 6) / 7

/-- Whitespace as trimmed by `String.prototype.trim` on the data this
application handles (ordinary spaces and ASCII control whitespace). -/
def isWsChar (c : Char) : Bool :=
  c = ' ' || c = '\t' || c = '\n' || c = '\r'

/-- JS `String.prototype.trim`, as a pure function on the character list. -/
def jsTrim (s : String) : String :=
  String.mk (((s.data.dropWhile isWsChar).reverse.dropWhile isWsChar).reverse)

/-- The source's global dash-to-slash replace on date strings: every `'-'`
character becomes `'/'`. -/
def replaceDashSlash (s : String) : String :=
  String.mk (s.data.map (fun c => if c = '-' then '/' else c))

/-- Split a string on a separator character (the behaviour of
`String.splitOn` for a one-character separator). -/
def splitOnChar (sep : Char) (s : String) : List String :=
  (s.data.foldr
    (fun c acc =>
      match acc with
      | [] => [[c]]
      | cur :: rest => if c = sep then [] :: cur :: rest else (c :: cur) :: rest)
    [[]]).map String.mk

/-- Parse a string of decimal digits, as `String.toNat?` does: `none` unless
the string is nonempty and all digits. -/
def strToNat? (s : String) : Option Nat :=
  if s.data ≠ [] && s.data.all (fun c => c.isDigit)
  then some (s.data.foldl (fun n c => n * 10 + (c.toNat - 48)) 0)
  else none

/-- The subset of the JS `Date` string parser the application exercises:
`"Y/M/D"` with in-range numeric components (the code always rewrites `-` to
`/` first). Anything else — including JS rollover inputs such as
`"2024/02/31"` — is treated as unparseable and modelled as `none`, standing
for an `Invalid Date` object. -/
def jsDateParse (str : String) : Option SimpleDate :=
  match splitOnChar '/' str with
  | [ys, ms, ds] =>
    match strToNat? ys, strToNat? ms, strToNat? ds with
    | some y, some m, some d =>
      if 1 ≤ m && m ≤ 12 && 1 ≤ d && d ≤ daysInMonth (Int.ofNat y) m
      then some ⟨Int.ofNat y, m, d⟩
      else none
    | _, _, _ => none
  | _ => none

/-- `CONFIG.FISCAL_MONTHS` from `js/config/constants.js`. -/
def FISCAL_MONTHS : List String :=
  ["July", "August", "September", "October", "November", "December",
   "January", "February", "March", "April", "May", "June"]

theorem daysInMonth_le (y : Int) (m : Nat) : daysInMonth y m ≤ 31 := by
  unfold daysInMonth
  split
  · split <;> omega
  · split <;> omega

theorem jsDateParse_isValid (s : String) (d : SimpleDate)
    (h : jsDateParse s = some d) : isValidDate d = true := by
  unfold jsDateParse at h
  split at h
  · split at h
    · split at h
      · rename_i hcond
        injection h with h'
        subst h'
        simpa [isValidDate] using hcond
      · exact absurd h (by simp)
    · exact absurd h (by simp)
  · exact absurd h (by simp)

theorem jsDateParse_day_le (s : String) (d : SimpleDate)
    (h : jsDateParse s = some d) : 1 ≤ d.day ∧ d.day ≤ 31 := by
  have hv := jsDateParse_isValid s d h
  simp only [isValidDate, Bool.and_eq_true, decide_eq_true_eq] at hv
  have hm := daysInMonth_le d.year d.month
  omega

theorem weekNum_eq_ceil (n : Nat) :
    (weekNum n : ℤ) = Int.ceil ((n : ℚ) / 7) := by
  have key1 : 7 * weekNum n ≤ n + 6 := by unfold weekNum; omega
  have key2 : n ≤ 7 * weekNum n := by unfold weekNum; omega
  rw [eq_comm, Int.ceil_eq_iff]
  constructor
  · rw [lt_div_iff (by norm_num : (0:ℚ) < 7)]
    have h1 : (7:ℚ) * (weekNum n : ℚ) ≤ (n : ℚ) + 6 := by exact_mod_cast key1
    push_cast
    linarith
  · rw [div_le_iff (by norm_num : (0:ℚ) < 7)]
    have h2 : (n:ℚ) ≤ 7 * (weekNum n : ℚ) := by exact_mod_cast key2
    push_cast
    linarith

/-- A row of the employee roster (`orgaData`), with the CSV column values the
code reads: `Matricule`, `Full Name`, `Gender`, `PROJET`, `Cost center`.
A missing or empty `Matricule` is modelled as `""` (both are falsy where the
code tests `emp.Matricule`). -/
structure Employee where
  matricule : String
  fullName : String
  gender : String
  projet : String
  costCenter : String
deriving DecidableEq

/-- A training record, with the raw fields the store receives (`Id`,
`Trainee's ID Number`, `Training Date`, `Training Type`,
`Number of Training Hours`, `Sector`, `Trainer`) and the enriched fields
`_enrichRecord` writes (`Full Name`, `Gender`, `Project`, `Cost Center`,
`Month`, `Week`). `trainingDate` and `sector` are `Option` because the code
observably distinguishes an absent value there (`.replace` throws on a
missing date; a missing sector interpolates as `"undefined"`); `hours` holds
the `parseFloat` result; `trainer` uses `""` for the falsy missing value. -/
structure TrainingRecord where
  id : String
  traineeId : String
  trainingDate : Option String
  trainingType : String
  hours : Option ℚ
  sector : Option String
  trainer : String
  fullName : String
  gender : String
  project : String
  costCenter : String
  month : String
  week : String
deriving DecidableEq

/-- A planned session, with the fields `calculateMonthlyData` reads:
`plannedDate`, `trainingType` and the trainee list. -/
structure PlannedSession where
  id : String
  plannedDate : String
  trainingType : String
  trainees : List String
  month : String
deriving DecidableEq

/-- The `DataService` instance state, extended with the persisted copies and
a count of `StorageService.save` calls so that persistence effects can be
stated. `saveToLocalStorage` is the only operation that touches the last
three fields. -/
structure DataServiceState where
  orgaData : List Employee
  trainingData : List TrainingRecord
  plannedSessions : List PlannedSession
  currentUser : String
  persistedTraining : List TrainingRecord
  persistedPlans : List PlannedSession
  saveCalls : Nat
deriving DecidableEq

/-- `_saveToLocalStorage`: writes both collections to storage (two
`StorageService.save` calls). -/
def saveToLocalStorage (s : DataServiceState) : DataServiceState :=
  { s with
    persistedTraining := s.trainingData
    persistedPlans := s.plannedSessions
    saveCalls := s.saveCalls + 2 }

/-- `getEmployeeById`: `null` (here `none`) for a falsy id, otherwise the
first roster entry whose trimmed `Matricule` equals the trimmed id. -/
def getEmployeeById (orgaData : List Employee) (id : String) : Option Employee :=
  if id = "" then none
  else
    let normalizedId := jsTrim id
    orgaData.find? (fun emp => emp.matricule != "" && jsTrim emp.matricule == normalizedId)

/-- `_enrichRecord`: writes `Full Name` / `Gender` / `Project` / `Cost Center`
from the roster lookup (or `"Unknown"` on a miss), then derives `Month` and
`Week` from the training date. `record['Training Date'].replace(...)` throws
a `TypeError` when the date value is `undefined`; on an unparseable string,
`toLocaleString` yields `"Invalid Date"` and `Math.ceil(NaN)` interpolates as
`"Week NaN"`. -/
def enrichRecord (orgaData : List Employee) (record : TrainingRecord) :
    Except String TrainingRecord :=
  let employee := getEmployeeById orgaData record.traineeId
  let r1 : TrainingRecord :=
    { record with
      fullName := match employee with | some e => e.fullName | none => "Unknown"
      gender := match employee with | some e => e.gender | none => "Unknown"
      project := match employee with | some e => e.projet | none => "Unknown"
      costCenter := match employee with | some e => e.costCenter | none => "Unknown" }
  match record.trainingDate with
  | none => Except.error "TypeError: cannot read replace of undefined"
  | some ds =>
    match jsDateParse (replaceDashSlash ds) with
    | some d =>
      Except.ok { r1 with
        month := monthName d.month
        week := "Week " ++ toString (weekNum d.day) }
    | none =>
      Except.ok { r1 with month := "Invalid Date", week := "Week NaN" }

/-- `addRecord`: assign a fresh id (here a parameter), default the trainer to
the current user when falsy, enrich, prepend (`unshift`), persist. A throw
from enrichment propagates and leaves the state untouched. -/
def addRecord (s : DataServiceState) (freshId : String) (record : TrainingRecord) :
    Except String DataServiceState :=
  match enrichRecord s.orgaData
      { record with
        id := freshId
        trainer := if record.trainer = "" then s.currentUser else record.trainer } with
  | Except.error e => Except.error e
  | Except.ok enriched =>
      Except.ok (saveToLocalStorage { s with trainingData := enriched :: s.trainingData })

/-- `updateRecord`: find the stored record by id; no-op when absent;
otherwise force the payload's trainer back to the stored one, re-enrich,
replace in place, persist. -/
def updateRecord (s : DataServiceState) (updatedRecord : TrainingRecord) :
    Except String DataServiceState :=
  match s.trainingData.findIdx? (fun r => r.id == updatedRecord.id) with
  | none => Except.ok s
  | some index =>
    match s.trainingData[index]? with
    | none => Except.ok s
    | some orig =>
      let upd := { updatedRecord with trainer := orig.trainer }
      match enrichRecord s.orgaData upd with
      | Except.error e => Except.error e
      | Except.ok enriched =>
          Except.ok (saveToLocalStorage
            { s with trainingData := s.trainingData.set index enriched })

/-- Claim C2: for every valid calendar date, the fiscal-year function returns
`FY Y` where `Y` is the date's calendar year if the calendar month is July or
later and the calendar year minus one otherwise; in particular June 30 2024
maps to `FY 2023` and July 1 2024 maps to `FY 2024`. -/
theorem claim_C2 (d : SimpleDate) (hd : isValidDate d = true) :
    getFiscalYear (some d) =
      (if 7 ≤ d.month then "FY " ++ toString d.year
       else "FY " ++ toString (d.year - 1))
    ∧ getFiscalYear (some ⟨2024, 6, 30⟩) = "FY 2023"
    ∧ getFiscalYear (some ⟨2024, 7, 1⟩) = "FY 2024" := by
  refine ⟨?_, by decide, by decide⟩
  by_cases h : 7 ≤ d.month
  · have h6 : 6 ≤ d.month - 1 := by omega
    simp [getFiscalYear, h, h6]
  · have h6 : ¬ 6 ≤ d.month - 1 := by omega
    simp [getFiscalYear, h, h6]

/-- Witness for claim C2 at the date July 1 2024. -/
theorem claim_C2_witness :
    isValidDate ⟨2024, 7, 1⟩ = true
    ∧ (getFiscalYear (some ⟨2024, 6, 30⟩) = "FY 2023"
       ∧ getFiscalYear (some ⟨2024, 7, 1⟩) = "FY 2024") :=
  ⟨by decide, (claim_C2 ⟨2024, 7, 1⟩ (by decide)).2⟩

/-- A concrete record used to build inputs for witnesses and
counterexamples. -/
def baseRecord : TrainingRecord :=
  { id := "r1", traineeId := "", trainingDate := some "2024-07-01",
    trainingType := "", hours := some 1, sector := some "A", trainer := "",
    fullName := "", gender := "", project := "", costCenter := "",
    month := "", week := "" }

/-- A concrete service state with empty collections. -/
def emptyState : DataServiceState :=
  { orgaData := [], trainingData := [], plannedSessions := [],
    currentUser := "User", persistedTraining := [], persistedPlans := [],
    saveCalls := 0 }

theorem enrichRecord_ok_of_date (orga : List Employee) (r : TrainingRecord)
    (ds : String) (hds : r.trainingDate = some ds) :
    ∃ r2, enrichRecord orga r = Except.ok r2 := by
  simp only [enrichRecord, hds]
  cases hp : jsDateParse (replaceDashSlash ds) with
  | some d => exact ⟨_, rfl⟩
  | none => exact ⟨_, rfl⟩

theorem enrichRecord_ok_fields (orga : List Employee) (r r2 : TrainingRecord)
    (h : enrichRecord orga r = Except.ok r2) :
    r2.id = r.id ∧ r2.traineeId = r.traineeId
    ∧ r2.trainingDate = r.trainingDate ∧ r2.trainingType = r.trainingType
    ∧ r2.hours = r.hours ∧ r2.sector = r.sector ∧ r2.trainer = r.trainer := by
  unfold enrichRecord at h
  split at h
  · exact absurd h (by simp)
  · split at h
    · injection h with h2
      subst h2
      simp
    · injection h with h2
      subst h2
      simp

theorem enrichRecord_unknown (orga : List Employee) (r r2 : TrainingRecord)
    (hemp : getEmployeeById orga r.traineeId = none)
    (h : enrichRecord orga r = Except.ok r2) :
    r2.fullName = "Unknown" ∧ r2.gender = "Unknown"
    ∧ r2.project = "Unknown" ∧ r2.costCenter = "Unknown" := by
  unfold enrichRecord at h
  rw [hemp] at h
  split at h
  · exact absurd h (by simp)
  · split at h
    · injection h with h2
      subst h2
      simp
    · injection h with h2
      subst h2
      simp

/-- Claim C3: for every training date the code can parse, the derived week
label is `Week N` with `N = ceil(day-of-month / 7)`, which always lands in
the five buckets `Week 1` .. `Week 5`; day 1 and day 7 give week 1, day 8
gives week 2, day 31 gives week 5. -/
theorem claim_C3 (orga : List Employee) (r : TrainingRecord) (ds : String)
    (d : SimpleDate) (hds : r.trainingDate = some ds)
    (hd : jsDateParse (replaceDashSlash ds) = some d) :
    ∃ r2, enrichRecord orga r = Except.ok r2
      ∧ r2.week = "Week " ++ toString (weekNum d.day)
      ∧ (weekNum d.day : ℤ) = Int.ceil ((d.day : ℚ) / 7)
      ∧ 1 ≤ weekNum d.day ∧ weekNum d.day ≤ 5
      ∧ weekNum 1 = 1 ∧ weekNum 7 = 1 ∧ weekNum 8 = 2 ∧ weekNum 31 = 5 := by
  have hday := jsDateParse_day_le _ _ hd
  simp only [enrichRecord, hds, hd]
  refine ⟨_, rfl, rfl, weekNum_eq_ceil d.day, ?_, ?_, by decide, by decide,
    by decide, by decide⟩
  · unfold weekNum; omega
  · unfold weekNum; omega

/-- Witness for claim C3 at the date 2024-07-08 (day 8, week 2). -/
theorem claim_C3_witness :
    ∃ r2,
      enrichRecord [] { baseRecord with trainingDate := some "2024-07-08" }
        = Except.ok r2
      ∧ r2.week = "Week " ++ toString (weekNum 8)
      ∧ (weekNum 8 : ℤ) = Int.ceil (((8 : Nat) : ℚ) / 7)
      ∧ 1 ≤ weekNum 8 ∧ weekNum 8 ≤ 5
      ∧ weekNum 1 = 1 ∧ weekNum 7 = 1 ∧ weekNum 8 = 2 ∧ weekNum 31 = 5 :=
  claim_C3 [] _ "2024-07-08" ⟨2024, 7, 8⟩ rfl (by decide)

/-- Counterexample to claim C5 as stated: the claim quantifies over every
record whose trainee identifier matches no roster entry, but for such a
record whose training-date value is missing, `addRecord` throws (the
TypeError from `_enrichRecord`) instead of completing. -/
theorem claim_C5_counterexample :
    getEmployeeById emptyState.orgaData "Z9" = none
    ∧ addRecord emptyState "f1"
        { baseRecord with traineeId := "Z9", trainingDate := none }
      = Except.error "TypeError: cannot read replace of undefined" :=
  ⟨rfl, rfl⟩

/-- Claim C5 (amended): for every record whose training-date value is
present (a string) and whose trainee identifier matches no roster entry,
the add operation completes without throwing and the enriched record —
prepended at the head of the collection — has full name, gender, project
and cost center equal to `"Unknown"`. -/
theorem claim_C5 (s : DataServiceState) (freshId : String) (r : TrainingRecord)
    (ds : String) (hds : r.trainingDate = some ds)
    (hemp : getEmployeeById s.orgaData r.traineeId = none) :
    ∃ s2, addRecord s freshId r = Except.ok s2
      ∧ ∃ r2, s2.trainingData.head? = some r2
        ∧ r2.fullName = "Unknown" ∧ r2.gender = "Unknown"
        ∧ r2.project = "Unknown" ∧ r2.costCenter = "Unknown" := by
  obtain ⟨r2, hok⟩ := enrichRecord_ok_of_date s.orgaData
    { r with
      id := freshId
      trainer := if r.trainer = "" then s.currentUser else r.trainer } ds hds
  have hunk := enrichRecord_unknown s.orgaData
    { r with
      id := freshId
      trainer := if r.trainer = "" then s.currentUser else r.trainer }
    r2 hemp hok
  simp only [addRecord, hok]
  exact ⟨_, rfl, r2, rfl, hunk⟩

/-- Witness for claim C5: adding a record with unmatched trainee `"Z9"` to
the empty-roster state. -/
theorem claim_C5_witness :
    ∃ s2, addRecord emptyState "f1" { baseRecord with traineeId := "Z9" }
        = Except.ok s2
      ∧ ∃ r2, s2.trainingData.head? = some r2
        ∧ r2.fullName = "Unknown" ∧ r2.gender = "Unknown"
        ∧ r2.project = "Unknown" ∧ r2.costCenter = "Unknown" :=
  claim_C5 emptyState "f1" _ "2024-07-01" rfl rfl

/-- Counterexample to claim C6 as stated: a record with a missing (hence
non-string) training-date value makes enrichment throw, and even for a
string date that fails to parse, the record's buckets become
`"Invalid Date"` / `"Week NaN"` — not an `"Unknown"` or empty bucket. -/
theorem claim_C6_counterexample :
    (∃ e, enrichRecord [] { baseRecord with trainingDate := none }
        = Except.error e)
    ∧ (∃ r2,
        enrichRecord [] { baseRecord with trainingDate := some "soon" }
          = Except.ok r2
        ∧ r2.month = "Invalid Date" ∧ r2.month ≠ "Unknown" ∧ r2.month ≠ ""
        ∧ r2.week = "Week NaN") :=
  ⟨⟨_, rfl⟩, ⟨_, rfl, rfl, by decide, by decide, rfl⟩⟩

/-- Claim C6 (amended): for every record whose training-date value is a
string that fails to parse as a date, enrichment does not throw and places
the record in the sentinel buckets month `"Invalid Date"` and week
`"Week NaN"`; a missing training-date value makes enrichment throw. -/
theorem claim_C6 :
    (∀ (orga : List Employee) (r : TrainingRecord) (ds : String),
        r.trainingDate = some ds → jsDateParse (replaceDashSlash ds) = none →
        ∃ r2, enrichRecord orga r = Except.ok r2
          ∧ r2.month = "Invalid Date" ∧ r2.week = "Week NaN")
    ∧ (∀ (orga : List Employee) (r : TrainingRecord),
        r.trainingDate = none →
        ∃ e, enrichRecord orga r = Except.error e) := by
  constructor
  · intro orga r ds hds hp
    simp only [enrichRecord, hds, hp]
    exact ⟨_, rfl, rfl, rfl⟩
  · intro orga r hnone
    simp only [enrichRecord, hnone]
    exact ⟨_, rfl⟩

/-- Witness for claim C6 at the unparseable date string `"soon2"` and at a
record with a missing date. -/
theorem claim_C6_witness :
    (∃ r2, enrichRecord [] { baseRecord with trainingDate := some "soon2" }
        = Except.ok r2
      ∧ r2.month = "Invalid Date" ∧ r2.week = "Week NaN")
    ∧ (∃ e, enrichRecord []
        { baseRecord with trainingDate := none, traineeId := "w" }
        = Except.error e) :=
  ⟨claim_C6.1 [] _ "soon2" rfl (by decide), claim_C6.2 [] _ rfl⟩

/-- Claim C9: the employee lookup trims the identifier and compares it
against trimmed roster `Matricule` values; it returns `none` when the input
is empty and when no roster entry matches, and any found entry is a roster
member with a nonempty matricule whose trimmed value equals the trimmed
input. -/
theorem claim_C9 (orga : List Employee) (id : String) :
    getEmployeeById orga "" = none
    ∧ (getEmployeeById orga id = none ↔
        (id = "" ∨ ∀ e ∈ orga, e.matricule = "" ∨ jsTrim e.matricule ≠ jsTrim id))
    ∧ (∀ e, getEmployeeById orga id = some e →
        e ∈ orga ∧ e.matricule ≠ "" ∧ jsTrim e.matricule = jsTrim id) := by
  refine ⟨by simp [getEmployeeById], ?_, ?_⟩
  · by_cases hid : id = ""
    · simp [getEmployeeById, hid]
    · simp only [getEmployeeById, if_neg hid, List.find?_eq_none,
        Bool.and_eq_true, bne_iff_ne, beq_iff_eq, not_and, ne_eq]
      constructor
      · intro h
        refine Or.inr fun e he => ?_
        by_cases hm : e.matricule = ""
        · exact Or.inl hm
        · exact Or.inr (h e he hm)
      · intro h e he
        rcases h with h | h
        · exact absurd h hid
        · intro hm
          rcases h e he with h1 | h1
          · exact absurd h1 hm
          · exact h1
  · intro e hfind
    unfold getEmployeeById at hfind
    split at hfind
    · exact absurd hfind (by simp)
    · have hmem := List.mem_of_find?_eq_some hfind
      have hp := List.find?_some hfind
      simp only [Bool.and_eq_true, bne_iff_ne, beq_iff_eq] at hp
      exact ⟨hmem, hp.1, hp.2⟩

/-- A concrete roster entry whose matricule needs trimming. -/
def empW : Employee :=
  { matricule := " 123 ", fullName := "Alice Doe", gender := "Female",
    projet := "P1", costCenter := "CC1" }

/-- A one-entry roster for the C9 witness. -/
def rosterW : List Employee := [empW]

/-- Witness for claim C9: looking up `"123"` finds the entry stored with
matricule `" 123 "`. -/
theorem claim_C9_witness :
    empW ∈ rosterW ∧ empW.matricule ≠ "" ∧ jsTrim empW.matricule = jsTrim "123" :=
  (claim_C9 rosterW "123").2.2 empW (by decide)

/-- Claim C10: an update whose payload identifier matches no stored record
is an atomic no-op — the whole state (both in-memory collections, the
persisted copies and the save-call count) is returned unchanged, so no
persistence write occurs. -/
theorem claim_C10 (s : DataServiceState) (payload : TrainingRecord)
    (h : ∀ r ∈ s.trainingData, r.id ≠ payload.id) :
    updateRecord s payload = Except.ok s := by
  have hidx : s.trainingData.findIdx? (fun r => r.id == payload.id) = none := by
    rw [List.findIdx?_eq_none_iff]
    intro x hx
    simpa using h x hx
  simp only [updateRecord, hidx]

/-- A concrete one-record state for the C10 and C4 witnesses. -/
def recA : TrainingRecord := { baseRecord with id := "a", trainer := "Alice" }

/-- The state holding just `recA`. -/
def stateA : DataServiceState := { emptyState with trainingData := [recA] }

/-- Witness for claim C10: updating with an id `"b"` absent from the store. -/
theorem claim_C10_witness :
    updateRecord stateA { baseRecord with id := "b" } = Except.ok stateA :=
  claim_C10 stateA _ (by decide)

/-- Claim C4: updating a stored record keeps the stored trainer (the
payload's trainer value is ignored) while the payload's other raw fields
replace the stored ones; the record is replaced in place (same index, other
indices and the length unchanged). -/
theorem claim_C4 (s : DataServiceState) (payload : TrainingRecord)
    (i : Nat) (orig : TrainingRecord) (ds : String)
    (hidx : s.trainingData.findIdx? (fun r => r.id == payload.id) = some i)
    (horig : s.trainingData[i]? = some orig)
    (hds : payload.trainingDate = some ds) :
    ∃ s2, updateRecord s payload = Except.ok s2
      ∧ ∃ r2, s2.trainingData[i]? = some r2
        ∧ r2.trainer = orig.trainer
        ∧ r2.id = payload.id ∧ r2.traineeId = payload.traineeId
        ∧ r2.trainingDate = payload.trainingDate
        ∧ r2.trainingType = payload.trainingType
        ∧ r2.hours = payload.hours ∧ r2.sector = payload.sector
        ∧ s2.trainingData.length = s.trainingData.length
        ∧ (∀ j, j ≠ i → s2.trainingData[j]? = s.trainingData[j]?) := by
  obtain ⟨r2, hok⟩ := enrichRecord_ok_of_date s.orgaData
    { payload with trainer := orig.trainer } ds hds
  have hf := enrichRecord_ok_fields s.orgaData _ r2 hok
  have hlt : i < s.trainingData.length := by
    rcases List.getElem?_eq_some_iff.mp horig with ⟨hl, _⟩
    exact hl
  simp only [updateRecord, hidx, horig, hok]
  refine ⟨_, rfl, r2, ?_, ?_, ?_, ?_, ?_, ?_, ?_, ?_, ?_, ?_⟩
  · show (s.trainingData.set i r2)[i]? = some r2
    exact List.getElem?_set_self hlt
  · simpa using hf.2.2.2.2.2.2
  · simpa using hf.1
  · simpa using hf.2.1
  · simpa using hf.2.2.1
  · simpa using hf.2.2.2.1
  · simpa using hf.2.2.2.2.1
  · simpa using hf.2.2.2.2.2.1
  · show (s.trainingData.set i r2).length = s.trainingData.length
    exact List.length_set s.trainingData i r2
  · intro j hj
    show (s.trainingData.set i r2)[j]? = s.trainingData[j]?
    exact List.getElem?_set_ne (Ne.symm hj)

/-- A payload for the C4 witness: same id as `recA`, trainer `"Bob"`, other
fields changed. -/
def payloadB : TrainingRecord :=
  { baseRecord with
    id := "a"
    trainer := "Bob"
    traineeId := "T9"
    trainingType := "Qualification"
    hours := some 3
    sector := some "S2" }

/-- Witness for claim C4: updating `recA` (trainer `"Alice"`) with
`payloadB` (trainer `"Bob"`) keeps trainer `"Alice"`. -/
theorem claim_C4_witness :
    ∃ s2, updateRecord stateA payloadB = Except.ok s2
      ∧ ∃ r2, s2.trainingData[0]? = some r2
        ∧ r2.trainer = recA.trainer
        ∧ r2.id = payloadB.id ∧ r2.traineeId = payloadB.traineeId
        ∧ r2.trainingDate = payloadB.trainingDate
        ∧ r2.trainingType = payloadB.trainingType
        ∧ r2.hours = payloadB.hours ∧ r2.sector = payloadB.sector
        ∧ s2.trainingData.length = stateA.trainingData.length
        ∧ (∀ j, j ≠ 0 → s2.trainingData[j]? = stateA.trainingData[j]?) :=
  claim_C4 stateA payloadB 0 recA "2024-07-01" (by decide) (by decide) rfl

/-- The aggregations read a record's hours through `parseFloat(x) || 0`. -/
def hoursOf (r : TrainingRecord) : ℚ := r.hours.getD 0

/-- JS `Set.prototype.add`: append the element when it is not yet present. -/
def setAdd (s : List String) (x : String) : List String :=
  if x ∈ s then s else s ++ [x]

/-- One month bucket of `calculateMonthlyData` in yearlyReport.js:
trainee-id sets, summed hours, realised session counts and planned
trainee-slot counts for each training type. -/
structure MonthAgg where
  operatorsQual : List String
  operatorsRefresh : List String
  hoursQual : ℚ
  hoursRefresh : ℚ
  qualifRealised : Nat
  refreshRealised : Nat
  qualifPlanned : Nat
  refreshPlanned : Nat
deriving DecidableEq

/-- The initial bucket contents built by the `reduce` over
`CONFIG.FISCAL_MONTHS`. -/
def emptyAgg : MonthAgg := ⟨[], [], 0, 0, 0, 0, 0, 0⟩

/-- Contribution of one planned session to the bucket of month `m`: the
session's month name is recomputed from its planned date, and the trainee
list length is added to the planned counter of its training type. -/
def planStep (m : String) (agg : MonthAgg) (p : PlannedSession) : MonthAgg :=
  let mo := match jsDateParse (replaceDashSlash p.plannedDate) with
    | some d => monthName d.month
    | none => "Invalid Date"
  if mo == m then
    if p.trainingType == "Qualification" then
      { agg with qualifPlanned := agg.qualifPlanned + p.trainees.length }
    else if p.trainingType == "Refreshment" then
      { agg with refreshPlanned := agg.refreshPlanned + p.trainees.length }
    else agg
  else agg

/-- Contribution of one training record to the bucket of month `m`, keyed by
the record's enriched `Month` field: the trainee id is added to the type's
`Set`, the parsed hours to the type's hour total, and the realised counter
is incremented — only for the `Qualification` and `Refreshment` types. -/
def monthStep (m : String) (agg : MonthAgg) (r : TrainingRecord) : MonthAgg :=
  if r.month == m then
    if r.trainingType == "Qualification" then
      { agg with
        operatorsQual := setAdd agg.operatorsQual r.traineeId
        hoursQual := agg.hoursQual + hoursOf r
        qualifRealised := agg.qualifRealised + 1 }
    else if r.trainingType == "Refreshment" then
      { agg with
        operatorsRefresh := setAdd agg.operatorsRefresh r.traineeId
        hoursRefresh := agg.hoursRefresh + hoursOf r
        refreshRealised := agg.refreshRealised + 1 }
    else agg
  else agg

/-- `calculateMonthlyData` from yearlyReport.js, projected onto the bucket of
month `m`: the JS builds all twelve `CONFIG.FISCAL_MONTHS` buckets in one
pass (first over planned sessions, then over records) and a row only
contributes when its month names an existing bucket; per bucket this is
exactly a fold over the rows whose month equals that bucket's. `none` stands
for a month with no bucket. -/
def calculateMonthlyData (records : List TrainingRecord)
    (plans : List PlannedSession) (m : String) : Option MonthAgg :=
  if m ∈ FISCAL_MONTHS then
    some (records.foldl (monthStep m) (plans.foldl (planStep m) emptyAgg))
  else none

/-- The records of month `m` with type `Qualification`. -/
def qualSubset (records : List TrainingRecord) (m : String) : List TrainingRecord :=
  records.filter (fun r => r.month == m && r.trainingType == "Qualification")

theorem foldl_monthStep_qualifRealised (m : String) :
    ∀ (l : List TrainingRecord) (agg : MonthAgg),
      (l.foldl (monthStep m) agg).qualifRealised
        = agg.qualifRealised + (qualSubset l m).length
  | [], agg => by simp [qualSubset]
  | r :: l, agg => by
    rw [List.foldl_cons, foldl_monthStep_qualifRealised m l (monthStep m agg r)]
    simp only [qualSubset, List.filter_cons]
    by_cases h1 : (r.month == m) = true
    · by_cases h2 : (r.trainingType == "Qualification") = true
      · simp only [monthStep, h1, h2, Bool.and_self, if_true]
        simp [qualSubset]
        omega
      · by_cases h3 : (r.trainingType == "Refreshment") = true
        · simp [monthStep, h1, h2, h3, qualSubset]
        · simp [monthStep, h1, h2, h3, qualSubset]
    · simp [monthStep, h1, qualSubset]

theorem foldl_monthStep_operatorsQual (m : String) :
    ∀ (l : List TrainingRecord) (agg : MonthAgg),
      (l.foldl (monthStep m) agg).operatorsQual
        = (qualSubset l m).foldl (fun s r => setAdd s r.traineeId) agg.operatorsQual
  | [], agg => by simp [qualSubset]
  | r :: l, agg => by
    rw [List.foldl_cons, foldl_monthStep_operatorsQual m l (monthStep m agg r)]
    simp only [qualSubset, List.filter_cons]
    by_cases h1 : (r.month == m) = true
    · by_cases h2 : (r.trainingType == "Qualification") = true
      · simp [monthStep, h1, h2, qualSubset]
      · by_cases h3 : (r.trainingType == "Refreshment") = true
        · simp [monthStep, h1, h2, h3, qualSubset]
        · simp [monthStep, h1, h2, h3, qualSubset]
    · simp [monthStep, h1, qualSubset]

theorem planStep_preserves (m : String) (agg : MonthAgg) (p : PlannedSession) :
    (planStep m agg p).operatorsQual = agg.operatorsQual
    ∧ (planStep m agg p).qualifRealised = agg.qualifRealised := by
  simp only [planStep]
  split
  · split
    · exact ⟨rfl, rfl⟩
    · split
      · exact ⟨rfl, rfl⟩
      · exact ⟨rfl, rfl⟩
  · exact ⟨rfl, rfl⟩

theorem foldl_planStep_preserves (m : String) :
    ∀ (plans : List PlannedSession) (agg : MonthAgg),
      (plans.foldl (planStep m) agg).operatorsQual = agg.operatorsQual
      ∧ (plans.foldl (planStep m) agg).qualifRealised = agg.qualifRealised
  | [], _ => ⟨rfl, rfl⟩
  | p :: plans, agg => by
    rw [List.foldl_cons]
    have h1 := foldl_planStep_preserves m plans (planStep m agg p)
    have h2 := planStep_preserves m agg p
    exact ⟨h1.1.trans h2.1, h1.2.trans h2.2⟩

theorem foldl_setAdd_const (t : String) :
    ∀ l : List TrainingRecord, (∀ r ∈ l, r.traineeId = t) →
      l.foldl (fun s r => setAdd s r.traineeId) [t] = [t]
  | [], _ => rfl
  | r :: l, h => by
    rw [List.foldl_cons]
    have hr : r.traineeId = t := h r (by simp)
    have h1 : setAdd [t] r.traineeId = [t] := by simp [setAdd, hr]
    rw [h1]
    exact foldl_setAdd_const t l (fun x hx => h x (by simp [hx]))

theorem foldl_setAdd_singleton (t : String) :
    ∀ l : List TrainingRecord, (∀ r ∈ l, r.traineeId = t) → l ≠ [] →
      l.foldl (fun s r => setAdd s r.traineeId) [] = [t]
  | [], _, hne => absurd rfl hne
  | r :: l, h, _ => by
    rw [List.foldl_cons]
    have hr : r.traineeId = t := h r (by simp)
    have h0 : setAdd [] r.traineeId = [t] := by simp [setAdd, hr]
    rw [h0]
    exact foldl_setAdd_const t l (fun x hx => h x (by simp [hx]))

/-- Claim C1: when the trainee `t` accounts for all `N > 1` qualification
rows of fiscal month `m`, the bucket's `operatorsQual` set counts `t` once
(distinct trainee ids) while `qualifRealised` counts all `N` rows. -/
theorem claim_C1 (records : List TrainingRecord) (plans : List PlannedSession)
    (m t : String) (N : Nat)
    (hm : m ∈ FISCAL_MONTHS)
    (hall : ∀ r ∈ records, r.month = m → r.trainingType = "Qualification" →
      r.traineeId = t)
    (hN : (qualSubset records m).length = N)
    (hN1 : 1 < N) :
    ∃ agg, calculateMonthlyData records plans m = some agg
      ∧ agg.operatorsQual.length = 1
      ∧ agg.operatorsQual.count t = 1
      ∧ agg.qualifRealised = N := by
  have hallq : ∀ r ∈ qualSubset records m, r.traineeId = t := by
    intro r hr
    rw [qualSubset, List.mem_filter] at hr
    rcases hr with ⟨hmem, hcond⟩
    simp only [Bool.and_eq_true, beq_iff_eq] at hcond
    exact hall r hmem hcond.1 hcond.2
  have hne : qualSubset records m ≠ [] := by
    intro h0
    rw [h0] at hN
    simp at hN
    omega
  have hplan := foldl_planStep_preserves m plans emptyAgg
  have hops := foldl_monthStep_operatorsQual m records (plans.foldl (planStep m) emptyAgg)
  have hqr := foldl_monthStep_qualifRealised m records (plans.foldl (planStep m) emptyAgg)
  rw [hplan.1] at hops
  rw [hplan.2] at hqr
  have e1 : emptyAgg.operatorsQual = ([] : List String) := rfl
  have e2 : emptyAgg.qualifRealised = 0 := rfl
  rw [e1] at hops
  rw [e2] at hqr
  have hset := foldl_setAdd_singleton t (qualSubset records m) hallq hne
  have hcalc : calculateMonthlyData records plans m
      = some (records.foldl (monthStep m) (plans.foldl (planStep m) emptyAgg)) := by
    simp [calculateMonthlyData, hm]
  refine ⟨_, hcalc, ?_, ?_, ?_⟩
  · rw [hops, hset]
    rfl
  · rw [hops, hset]
    simp
  · rw [hqr, hN]
    omega

/-- First of two qualification rows for trainee `"T1"` in July. -/
def recQ1 : TrainingRecord :=
  { baseRecord with
    id := "q1"
    traineeId := "T1"
    trainingType := "Qualification"
    month := "July" }

/-- Second qualification row for the same trainee and month. -/
def recQ2 : TrainingRecord :=
  { baseRecord with
    id := "q2"
    traineeId := "T1"
    trainingType := "Qualification"
    month := "July" }

/-- Witness for claim C1: trainee `"T1"` qualified twice in July. -/
theorem claim_C1_witness :
    ∃ agg, calculateMonthlyData [recQ1, recQ2] [] "July" = some agg
      ∧ agg.operatorsQual.length = 1
      ∧ agg.operatorsQual.count "T1" = 1
      ∧ agg.qualifRealised = 2 :=
  claim_C1 [recQ1, recQ2] [] "July" "T1" 2 (by decide) (by decide) (by decide)
    (by decide)

/-- The JS object-accumulator update `acc[k] = g(acc[k])`: replace the value
of an existing key in place, or append a new key at the end (JS string-key
insertion order). -/
def upsert {α : Type} (k : String) (g : Option α → α) :
    List (String × α) → List (String × α)
  | [] => [(k, g none)]
  | (k2, v) :: rest =>
    if k2 = k then (k2, g (some v)) :: rest else (k2, v) :: upsert k g rest

/-- An `Array.prototype.reduce` into an object keyed by `key r`, as the
analysis and performance components do. -/
def accumBy {α : Type} (key : TrainingRecord → String)
    (g : TrainingRecord → Option α → α) (records : List TrainingRecord) :
    List (String × α) :=
  records.foldl (fun acc r => upsert (key r) (g r) acc) []

/-- The value at one key after a sequence of per-record updates. -/
def chain {α : Type} (g : TrainingRecord → Option α → α) (o : Option α)
    (l : List TrainingRecord) : Option α :=
  l.foldl (fun o r => some (g r o)) o

theorem chain_cons {α : Type} (g : TrainingRecord → Option α → α) (o : Option α)
    (r : TrainingRecord) (l : List TrainingRecord) :
    chain g o (r :: l) = chain g (some (g r o)) l := rfl

theorem chain_some {α : Type} (g : TrainingRecord → Option α → α) :
    ∀ (l : List TrainingRecord) (v : α), ∃ w, chain g (some v) l = some w
  | [], v => ⟨v, rfl⟩
  | r :: l, v => chain_some g l (g r (some v))

theorem lookup_upsert_self {α : Type} (k : String) (g : Option α → α) :
    ∀ l : List (String × α),
      List.lookup k (upsert k g l) = some (g (List.lookup k l))
  | [] => by simp [upsert]
  | (k2, v) :: rest => by
    by_cases h : k2 = k
    · subst h
      simp [upsert]
    · simp only [upsert, if_neg h]
      have hbk : (k == k2) = false := by simp [Ne.symm h]
      simp [List.lookup_cons, hbk, lookup_upsert_self k g rest]

theorem lookup_upsert_ne {α : Type} (k k2 : String) (hne : k2 ≠ k)
    (g : Option α → α) :
    ∀ l : List (String × α), List.lookup k2 (upsert k g l) = List.lookup k2 l
  | [] => by
    have hbk : (k2 == k) = false := by simp [hne]
    simp [upsert, hbk, hne]
  | (k3, v) :: rest => by
    by_cases h : k3 = k
    · subst h
      have hbk : (k2 == k3) = false := by simp [hne]
      simp [upsert, List.lookup_cons, hbk]
    · simp only [upsert, if_neg h]
      simp [List.lookup_cons, lookup_upsert_ne k k2 hne g rest]

theorem lookup_accumBy_aux {α : Type} (key : TrainingRecord → String)
    (g : TrainingRecord → Option α → α) (k : String) :
    ∀ (records : List TrainingRecord) (acc : List (String × α)),
      List.lookup k (records.foldl (fun acc r => upsert (key r) (g r) acc) acc)
        = chain g (List.lookup k acc) (records.filter (fun r => key r == k))
  | [], acc => rfl
  | r :: records, acc => by
    rw [List.foldl_cons, lookup_accumBy_aux key g k records]
    simp only [List.filter_cons]
    by_cases h : (key r == k) = true
    · have hk : key r = k := by simpa using h
      rw [if_pos h, chain_cons, hk, lookup_upsert_self k (g r) acc]
    · have hk : key r ≠ k := by simpa using h
      rw [if_neg h, lookup_upsert_ne (key r) k (Ne.symm hk) (g r) acc]

theorem lookup_accumBy {α : Type} (key : TrainingRecord → String)
    (g : TrainingRecord → Option α → α) (k : String)
    (records : List TrainingRecord) :
    List.lookup k (accumBy key g records)
      = chain g none (records.filter (fun r => key r == k)) := by
  rw [accumBy, lookup_accumBy_aux]
  rfl

/-- The performance row of one trainer: accumulated hours and session count
(`calculatePerformance` in performance.js). -/
structure PerfStats where
  hours : ℚ
  sessions : Nat
deriving DecidableEq

/-- The key of `calculatePerformance`: `r.Trainer || 'Unknown'`. -/
def perfKey (r : TrainingRecord) : String :=
  if r.trainer = "" then "Unknown" else r.trainer

/-- One record's update of its trainer's performance row. -/
def perfG (r : TrainingRecord) (o : Option PerfStats) : PerfStats :=
  let p := o.getD ⟨0, 0⟩
  ⟨p.hours + hoursOf r, p.sessions + 1⟩

/-- `calculatePerformance` from performance.js. -/
def calculatePerformance (records : List TrainingRecord) :
    List (String × PerfStats) :=
  accumBy perfKey perfG records

/-- The key of `renderSessionsByAreaChart`: `r.Sector || 'Unknown'`. -/
def areaKey (r : TrainingRecord) : String :=
  match r.sector with
  | none => "Unknown"
  | some s2 => if s2 = "" then "Unknown" else s2

/-- One record's update of a sector's session count. -/
def areaG (_ : TrainingRecord) (o : Option Nat) : Nat :=
  o.getD 0 + 1

/-- `renderSessionsByAreaChart` from analysis.js:
`acc[sector] = (acc[sector] || 0) + 1`. -/
def sessionsByArea (records : List TrainingRecord) : List (String × Nat) :=
  accumBy areaKey areaG records

/-- JS template-literal interpolation of a possibly-missing string value:
`undefined` interpolates as the text `"undefined"`. -/
def jsInterp : Option String → String
  | none => "undefined"
  | some s2 => s2

/-- The two stacked series of the weekly hours-by-gender chart. -/
structure GenderHours where
  male : ℚ
  female : ℚ
deriving DecidableEq

/-- The cross-tabulation key of `renderWeeklyHoursByGenderChart`: the
template literal joining `r.Week` and `r.Sector` with a dash. -/
def whgKey (r : TrainingRecord) : String :=
  r.week ++ "-" ++ jsInterp r.sector

/-- One record's update of a cross-tabulation cell: hours are added only to
a recognised `Male`/`Female` series, but the key's cell is created
regardless. -/
def whgG (r : TrainingRecord) (o : Option GenderHours) : GenderHours :=
  let cur := o.getD ⟨0, 0⟩
  if r.gender = "Male" then { cur with male := cur.male + hoursOf r }
  else if r.gender = "Female" then { cur with female := cur.female + hoursOf r }
  else cur

/-- `renderWeeklyHoursByGenderChart`'s accumulation from analysis.js. -/
def weeklyHoursByGender (records : List TrainingRecord) :
    List (String × GenderHours) :=
  accumBy whgKey whgG records

/-- Sum of the parsed hours of a list of records. -/
def sumHours (l : List TrainingRecord) : ℚ :=
  (l.map hoursOf).sum

theorem chain_perf : ∀ (l : List TrainingRecord) (p : PerfStats),
    chain perfG (some p) l = some ⟨p.hours + sumHours l, p.sessions + l.length⟩
  | [], p => by simp [chain, sumHours]
  | r :: l, p => by
    rw [chain_cons, chain_perf l (perfG r (some p))]
    simp only [perfG, Option.getD, sumHours, List.map_cons, List.sum_cons,
      List.length_cons, Option.some.injEq, PerfStats.mk.injEq]
    constructor
    · ring
    · omega

theorem lookup_calculatePerformance (records : List TrainingRecord) (lbl : String) :
    List.lookup lbl (calculatePerformance records)
      = (if records.filter (fun r => perfKey r == lbl) = [] then none
         else some ⟨sumHours (records.filter (fun r => perfKey r == lbl)),
                    (records.filter (fun r => perfKey r == lbl)).length⟩) := by
  rw [calculatePerformance, lookup_accumBy]
  cases hf : records.filter (fun r => perfKey r == lbl) with
  | nil => simp [chain]
  | cons r l =>
    rw [chain_cons, chain_perf l (perfG r none)]
    have hcons : (r :: l) ≠ ([] : List TrainingRecord) := by simp
    rw [if_neg hcons]
    simp only [perfG, Option.getD, sumHours, List.map_cons, List.sum_cons,
      Option.some.injEq, PerfStats.mk.injEq, List.length_cons]
    constructor
    · ring
    · omega

/-- The record subset of one gender × training-type cell of
`renderAvgHoursByGenderChart`. -/
def cellRecords (records : List TrainingRecord) (ttype g : String) :
    List TrainingRecord :=
  records.filter (fun r => r.trainingType == ttype && r.gender == g)

/-- The cell average of `renderAvgHoursByGenderChart`:
`c > 0 ? h / c : 0`. -/
def cellAvg (records : List TrainingRecord) (ttype g : String) : ℚ :=
  if 0 < (cellRecords records ttype g).length
  then sumHours (cellRecords records ttype g)
    / ((cellRecords records ttype g).length : ℚ)
  else 0

/-- The per-trainer average of `renderTable` in performance.js:
`sessions > 0 ? hours / sessions : '0.00'` (the `'0.00'` display string is
the number zero). -/
def trainerAvg (p : PerfStats) : ℚ :=
  if 0 < p.sessions then p.hours / (p.sessions : ℚ) else 0

/-- Claim C8: every average-hours computation — the gender × type cells and
the per-trainer table — returns 0 on an empty subset and `sum of hours /
number of sessions` on a non-empty one; performance rows carry exactly the
subset sums, so no division by zero can occur (in this ℚ embedding no `NaN`
exists and the zero guard is explicit). -/
theorem claim_C8 (records : List TrainingRecord) (ttype g lbl : String) :
    (cellRecords records ttype g = [] → cellAvg records ttype g = 0)
    ∧ (cellRecords records ttype g ≠ [] →
        cellAvg records ttype g
          = sumHours (cellRecords records ttype g)
            / ((cellRecords records ttype g).length : ℚ))
    ∧ (∀ p, List.lookup lbl (calculatePerformance records) = some p →
        p.hours = sumHours (records.filter (fun r => perfKey r == lbl))
        ∧ p.sessions = (records.filter (fun r => perfKey r == lbl)).length
        ∧ 0 < p.sessions
        ∧ trainerAvg p = p.hours / (p.sessions : ℚ))
    ∧ (∀ p : PerfStats, p.sessions = 0 → trainerAvg p = 0) := by
  refine ⟨?_, ?_, ?_, ?_⟩
  · intro h
    simp [cellAvg, h]
  · intro h
    have hpos : 0 < (cellRecords records ttype g).length :=
      List.length_pos.mpr h
    simp [cellAvg, hpos]
  · intro p hp
    rw [lookup_calculatePerformance] at hp
    split at hp
    · exact absurd hp (by simp)
    · rename_i hne
      injection hp with hp
      subst hp
      have hpos : 0 < (records.filter (fun r => perfKey r == lbl)).length :=
        List.length_pos.mpr hne
      exact ⟨rfl, rfl, hpos, by simp [trainerAvg, hpos]⟩
  · intro p h0
    simp [trainerAvg, h0]

/-- Witness for claim C8: the empty cell and a zero-session row both give
average 0. -/
theorem claim_C8_witness :
    cellAvg [] "Qualification" "Male" = 0 ∧ trainerAvg ⟨5, 0⟩ = 0 :=
  ⟨(claim_C8 [] "Qualification" "Male" "x").1 rfl,
   (claim_C8 [] "Qualification" "Male" "x").2.2.2 ⟨5, 0⟩ rfl⟩

theorem chain_area_ge :
    ∀ (l : List TrainingRecord) (n : Nat),
      ∃ w, chain areaG (some n) l = some w ∧ n ≤ w
  | [], n => ⟨n, rfl, Nat.le_refl n⟩
  | x :: l, n => by
    rw [chain_cons]
    obtain ⟨w, hw, hle⟩ := chain_area_ge l (areaG x (some n))
    exact ⟨w, hw, Nat.le_trans (Nat.le_succ n) hle⟩

/-- A record with a missing sector, hitting the cross-tabulation key
`"Week 1-undefined"`. -/
def recNoSector : TrainingRecord :=
  { baseRecord with
    sector := none
    gender := "Male"
    week := "Week 1"
    hours := some 2 }

/-- Counterexample to claim C7 as stated: in the weekly cross-tabulation a
record with a missing sector does not contribute to a key with sector part
`"Unknown"` — that key is absent — but to the key `"Week 1-undefined"`
(JS interpolates the missing value as the text `undefined`). -/
theorem claim_C7_counterexample :
    List.lookup "Week 1-Unknown" (weeklyHoursByGender [recNoSector]) = none
    ∧ List.lookup "Week 1-undefined" (weeklyHoursByGender [recNoSector])
      = some ⟨2, 0⟩ := by
  constructor
  · decide
  · have h : weeklyHoursByGender [recNoSector]
        = [("Week 1-undefined", whgG recNoSector none)] := rfl
    rw [h]
    have h2 : whgG recNoSector none = ⟨2, 0⟩ := by
      simp [whgG, recNoSector, baseRecord, hoursOf]
    rw [h2]
    rfl

/-- Claim C7 (amended): missing categorical values fall back to the literal
label `"Unknown"` in the trainer-keyed performance aggregation and in the
sessions-by-area aggregation, rather than being dropped; in the
weekly/monthly cross-tabulation keyed `bucket-sector` a record with a
missing sector is likewise not dropped, but its key's sector part is the
string `"undefined"`, not `"Unknown"`. -/
theorem claim_C7 (records : List TrainingRecord) (r : TrainingRecord)
    (hsec : r.sector = none) (htr : r.trainer = "") :
    (∃ n, List.lookup "Unknown" (sessionsByArea (r :: records)) = some n ∧ 1 ≤ n)
    ∧ (∃ p, List.lookup "Unknown" (calculatePerformance (r :: records)) = some p
        ∧ 1 ≤ p.sessions)
    ∧ (∃ v, List.lookup (r.week ++ "-undefined")
        (weeklyHoursByGender (r :: records)) = some v) := by
  refine ⟨?_, ?_, ?_⟩
  · simp only [sessionsByArea]
    rw [lookup_accumBy]
    have hkey : (areaKey r == "Unknown") = true := by simp [areaKey, hsec]
    rw [List.filter_cons, if_pos hkey, chain_cons]
    obtain ⟨w, hw, hle⟩ :=
      chain_area_ge (List.filter (fun x => areaKey x == "Unknown") records)
        (areaG r none)
    exact ⟨w, hw, hle⟩
  · rw [lookup_calculatePerformance]
    have hkey : (perfKey r == "Unknown") = true := by simp [perfKey, htr]
    rw [List.filter_cons, if_pos hkey]
    have hcons : (r :: List.filter (fun x => perfKey x == "Unknown") records)
        ≠ [] := by simp
    rw [if_neg hcons]
    exact ⟨_, rfl, by simp only [List.length_cons]; omega⟩
  · simp only [weeklyHoursByGender]
    rw [lookup_accumBy]
    have h1 : ("-" : String) ++ "undefined" = "-undefined" := rfl
    have hkey : (whgKey r == r.week ++ "-undefined") = true := by
      simp [whgKey, jsInterp, hsec, String.append_assoc, h1]
    rw [List.filter_cons, if_pos hkey, chain_cons]
    exact chain_some whgG _ _

/-- A record with missing sector and missing trainer for the C7 witness. -/
def recC7 : TrainingRecord :=
  { baseRecord with
    sector := none
    trainer := ""
    gender := "Female"
    week := "Week 2" }

/-- Witness for claim C7 on the one-record collection `[recC7]`. -/
theorem claim_C7_witness :
    (∃ n, List.lookup "Unknown" (sessionsByArea [recC7]) = some n ∧ 1 ≤ n)
    ∧ (∃ p, List.lookup "Unknown" (calculatePerformance [recC7]) = some p
        ∧ 1 ≤ p.sessions)
    ∧ (∃ v, List.lookup (recC7.week ++ "-undefined")
        (weeklyHoursByGender [recC7]) = some v) :=
  claim_C7 [] recC7 rfl rfl

end Trainingapp
